import Mathlib

/-!
Verification of the ingestion-compute-republish pipeline and the object
copier of the cloud-migration backend (src/backend./app.py).

The embedding mirrors the Python/SQL source:

* JSON documents are records whose fields are `Option`-valued, a `none`
  standing for an absent key.  A Python bracket lookup `d['k']` (which
  raises `KeyError` when the key is missing) is embedded as `req k o`
  returning `Except String`; the `.get` lookup (which silently yields
  `None`) is embedded as the `Option` value itself.
* SQL `DECIMAL` arithmetic is embedded as exact rational arithmetic (ℚ);
  the values in play (two fractional digits, division by 100) are
  representable exactly.
* The relational store is a record of four append-only lists, one per
  table; the external database may reject an `INSERT` (constraint
  violation), modelled by an `accept` predicate supplied to the write.
  The code issues a single `COMMIT` after all inserts and closes the
  connection on any error, so a failed batch leaves the visible store
  unchanged; the write returns `Except`, the error case leaving the
  store as it was.
* The two object stores of the copier are association lists from keys to
  byte lists.
-/

namespace CloudMigration

/-! ### Input documents (nested JSON, §4.1 shape) -/

structure CustomerInfoDoc where
  name : Option String
  age : Option Int
  address : Option String
  deriving Repr, DecidableEq

structure VehicleInfoDoc where
  make : Option String
  model : Option String
  year : Option Int
  vehicle_damage : Option ℚ
  deriving Repr, DecidableEq

structure CoverageInfoDoc where
  liability : Option ℚ
  collision : Option ℚ
  comprehensive : Option ℚ
  discount : Option ℚ
  deriving Repr, DecidableEq

structure PolicyDoc where
  policy_id : Option String
  policy_type : Option String
  base_premium : Option ℚ
  risk_factor : Option String
  /-- Top-level discount on the policy object.  The source never reads
  this key (`policy['discount']` occurs nowhere); it is carried here so
  that its irrelevance can be stated. -/
  discount : Option ℚ
  customer_info : Option CustomerInfoDoc
  vehicle_info : Option VehicleInfoDoc
  coverage_info : Option CoverageInfoDoc
  deriving Repr, DecidableEq

structure BranchDoc where
  branch_id : Option String
  policies : Option (List PolicyDoc)
  deriving Repr, DecidableEq

structure Document where
  branches : Option (List BranchDoc)
  deriving Repr, DecidableEq

/-! ### Normalized rows (the four tables' columns, app.py lines 92-138) -/

structure PolicyRow where
  policy_id : String
  policy_type : String
  base_premium : ℚ
  vehicle_damage : ℚ
  risk_factor : String
  discount : ℚ
  /-- `branch_id` comes from `branch.get('branch_id')`, which yields
  `None` when the key is absent, hence the `Option`. -/
  branch_id : Option String
  deriving Repr, DecidableEq

structure CustomerRow where
  policy_id : String
  name : String
  age : Int
  address : String
  deriving Repr, DecidableEq

structure VehicleRow where
  policy_id : String
  make : String
  model : String
  year : Int
  vehicle_damage : ℚ
  deriving Repr, DecidableEq

structure CoverageRow where
  policy_id : String
  liability : ℚ
  collision : ℚ
  comprehensive : ℚ
  discount : ℚ
  deriving Repr, DecidableEq

/-- The four rows produced for one policy object (the four `INSERT`s of
one loop iteration, app.py lines 214-263). -/
structure RowQuad where
  policy : PolicyRow
  customer : CustomerRow
  vehicle : VehicleRow
  coverage : CoverageRow
  deriving Repr, DecidableEq

/-! ### Premium calculation (the SELECT of app.py lines 270-302) -/

/-- The `CASE risk_factor WHEN 'low' THEN 1.0 WHEN 'medium' THEN 1.5
WHEN 'high' THEN 2.0 ELSE 1.0 END` expression. -/
def riskMultiplier (risk_factor : String) : ℚ :=
  if risk_factor = "low" then 1
  else if risk_factor = "medium" then 15 / 10
  else if risk_factor = "high" then 2
  else 1

/-- `base_premium + (vehicle_damage * CASE ...) - (base_premium *
(discount / 100))`: the `calculated_premium` column of the SELECT.  The
SQL spells the same expression out a second time inside the eligibility
CASE; both occurrences are this function. -/
def calculatedPremium (base_premium vehicle_damage : ℚ)
    (risk_factor : String) (discount : ℚ) : ℚ :=
  base_premium + vehicle_damage * riskMultiplier risk_factor
    - base_premium * (discount / 100)

/-- The `insurance_granted` column: `'Granted'` when the recomputed
premium is below 10000 and `risk_factor IN ('low', 'medium')`, else
`'Rejected'`. -/
def insuranceGranted (base_premium vehicle_damage : ℚ)
    (risk_factor : String) (discount : ℚ) : String :=
  if calculatedPremium base_premium vehicle_damage risk_factor discount < 10000
      ∧ (risk_factor = "low" ∨ risk_factor = "medium")
  then "Granted" else "Rejected"

/-- One row of the SELECT's result set, as re-serialized in Step 4
(app.py lines 307-318). -/
structure RatedPolicy where
  policy_id : String
  policy_type : String
  base_premium : ℚ
  vehicle_damage : ℚ
  risk_factor : String
  discount : ℚ
  calculated_premium : ℚ
  insurance_granted : String
  deriving Repr, DecidableEq

/-- Rating one stored policy row: the per-row content of the SELECT. -/
def ratePolicy (r : PolicyRow) : RatedPolicy :=
  ⟨r.policy_id, r.policy_type, r.base_premium, r.vehicle_damage,
   r.risk_factor, r.discount,
   calculatedPremium r.base_premium r.vehicle_damage r.risk_factor r.discount,
   insuranceGranted r.base_premium r.vehicle_damage r.risk_factor r.discount⟩

/-- Multiplier table exactly as the specification words it (§4.3 item 1),
for comparison with `riskMultiplier` read off the SQL. -/
def specMultiplier (risk_factor : String) : ℚ :=
  if risk_factor = "low" then 1
  else if risk_factor = "medium" then 3 / 2
  else if risk_factor = "high" then 2
  else 1

/-! ### Document decomposition (app.py lines 210-263)

The loop body reads each value with a Python bracket lookup, which
raises `KeyError` naming the missing key; only `branch_id` is read with
`branch.get('branch_id')`, which yields `None` instead of raising. -/

/-- Bracket lookup `d['k']`: the value when present, `KeyError k`
otherwise. -/
def req {α : Type} (k : String) : Option α → Except String α
  | some v => Except.ok v
  | none => Except.error k

/-- The four rows built for one policy object, reading the keys in the
order the four `INSERT` statements do (app.py lines 214-263).
`branch_id` is passed through unchanged, `none` included, because the
source obtains it from `branch.get('branch_id')`. -/
def decomposePolicy (branch_id : Option String) (p : PolicyDoc) :
    Except String RowQuad := do
  let pid ← req "policy_id" p.policy_id
  let ptype ← req "policy_type" p.policy_type
  let base ← req "base_premium" p.base_premium
  let vi ← req "vehicle_info" p.vehicle_info
  let vdamage ← req "vehicle_damage" vi.vehicle_damage
  let rf ← req "risk_factor" p.risk_factor
  let ci ← req "coverage_info" p.coverage_info
  let cdiscount ← req "discount" ci.discount
  let cust ← req "customer_info" p.customer_info
  let cname ← req "name" cust.name
  let cage ← req "age" cust.age
  let caddress ← req "address" cust.address
  let vmake ← req "make" vi.make
  let vmodel ← req "model" vi.model
  let vyear ← req "year" vi.year
  let liab ← req "liability" ci.liability
  let coll ← req "collision" ci.collision
  let compr ← req "comprehensive" ci.comprehensive
  pure ⟨⟨pid, ptype, base, vdamage, rf, cdiscount, branch_id⟩,
        ⟨pid, cname, cage, caddress⟩,
        ⟨pid, vmake, vmodel, vyear, vdamage⟩,
        ⟨pid, liab, coll, compr, cdiscount⟩⟩

/-- One branch: `branch['policies']` is a bracket lookup, then the
policy loop. -/
def decomposeBranch (b : BranchDoc) : Except String (List RowQuad) := do
  let ps ← req "policies" b.policies
  ps.mapM (decomposePolicy b.branch_id)

/-- Whole document: `data['branches']` then the branch loop. -/
def decompose (d : Document) : Except String (List RowQuad) := do
  let bs ← req "branches" d.branches
  let qss ← bs.mapM decomposeBranch
  pure qss.flatten

/-- The fields whose absence makes the loop of app.py lines 210-263
raise: everything read with a bracket lookup.  `branch_id` and the
policy object's own top-level `discount` are deliberately NOT required —
the source reads the former with `.get` and never reads the latter. -/
def policyComplete (p : PolicyDoc) : Bool :=
  p.policy_id.isSome && p.policy_type.isSome && p.base_premium.isSome &&
    (match p.vehicle_info with
     | none => false
     | some vi =>
       vi.vehicle_damage.isSome && p.risk_factor.isSome &&
         (match p.coverage_info with
          | none => false
          | some ci =>
            ci.discount.isSome &&
              (match p.customer_info with
               | none => false
               | some cust =>
                 cust.name.isSome && cust.age.isSome && cust.address.isSome &&
                   vi.make.isSome && vi.model.isSome && vi.year.isSome &&
                   ci.liability.isSome && ci.collision.isSome &&
                   ci.comprehensive.isSome)))

/-- A branch decomposes iff its `policies` key is present and each
policy is complete; `branch_id` does not matter. -/
def branchComplete (b : BranchDoc) : Bool :=
  match b.policies with
  | none => false
  | some ps => ps.all policyComplete

/-- All keys read with a bracket lookup along the whole traversal. -/
def requiredPresent (d : Document) : Bool :=
  match d.branches with
  | none => false
  | some bs => bs.all branchComplete

/-- The policy objects of a document, in traversal order, keys defaulted
to empty only for the purpose of naming the submitted sequence. -/
def submittedPolicies (d : Document) : List PolicyDoc :=
  (d.branches.getD []).flatMap fun b => b.policies.getD []

/-! ### Normalized store and batch write (app.py lines 208-265)

The store holds the four tables as append-only row lists.  The external
database may reject an individual `INSERT` (constraint violation,
§4.2/§6 of the spec); this is the `accept` parameter.  The source opens
one transaction, runs every insert, and issues a single `COMMIT` at the
end; on any error the context manager closes the connection without
committing, so the visible state is unchanged. -/

structure Store where
  policy : List PolicyRow
  customer_info : List CustomerRow
  vehicle_info : List VehicleRow
  coverage_info : List CoverageRow
  deriving Repr, DecidableEq

def Store.empty : Store := ⟨[], [], [], []⟩

/-- A row destined for one of the four tables. -/
inductive Row where
  | policy (r : PolicyRow)
  | customer (r : CustomerRow)
  | vehicle (r : VehicleRow)
  | coverage (r : CoverageRow)
  deriving Repr, DecidableEq

/-- Appending one row to its table. -/
def Store.add (s : Store) : Row → Store
  | .policy r => ⟨s.policy ++ [r], s.customer_info, s.vehicle_info, s.coverage_info⟩
  | .customer r => ⟨s.policy, s.customer_info ++ [r], s.vehicle_info, s.coverage_info⟩
  | .vehicle r => ⟨s.policy, s.customer_info, s.vehicle_info ++ [r], s.coverage_info⟩
  | .coverage r => ⟨s.policy, s.customer_info, s.vehicle_info, s.coverage_info ++ [r]⟩

/-- One `INSERT` inside the open transaction: the database either
accepts it or rejects it with an error. -/
def insertRow (accept : Row → Bool) (buf : Store) (r : Row) : Except String Store :=
  if accept r then Except.ok (buf.add r) else Except.error "insert rejected"

/-- The four `INSERT`s of one loop iteration, in source order. -/
def insertQuad (accept : Row → Bool) (buf : Store) (q : RowQuad) : Except String Store := do
  let b1 ← insertRow accept buf (Row.policy q.policy)
  let b2 ← insertRow accept b1 (Row.customer q.customer)
  let b3 ← insertRow accept b2 (Row.vehicle q.vehicle)
  insertRow accept b3 (Row.coverage q.coverage)

/-- All inserts of the batch, then the single `COMMIT` on success. -/
def writeBatch (accept : Row → Bool) (s : Store) (quads : List RowQuad) :
    Except String Store :=
  quads.foldlM (insertQuad accept) s

/-- The store visible to subsequent reads after the write attempt: the
committed transaction on success, the untouched previous state when the
connection is closed without commit. -/
def visibleWrite (accept : Row → Bool) (s : Store) (quads : List RowQuad) : Store :=
  match writeBatch accept s quads with
  | Except.ok s2 => s2
  | Except.error _ => s

/-! ### The whole ingest-compute-republish pipeline (app.py 190-344)

In the source the row extraction and the inserts are interleaved in one
loop inside one transaction; since the single `COMMIT` runs only after
the whole traversal has succeeded, the committed state and the outcome
coincide with extracting all rows first and then writing them, which is
how the pipeline is factored here.  Step 3's SELECT reads the whole
`policy` table — every row ever committed, not only the current batch —
and Step 4 re-serializes the rated rows in read order. -/

def processDocument (accept : Row → Bool) (s : Store) (d : Document) :
    Except String (Store × List RatedPolicy) := do
  let quads ← decompose d
  let s2 ← writeBatch accept s quads
  pure (s2, s2.policy.map ratePolicy)

/-- The decomposed policy's keys that the output must echo, related to
one published record: `policy_id` and `policy_type` verbatim, and the
published `discount`, which the pipeline takes from
`coverage_info.discount`. -/
def ratedMatches (p : PolicyDoc) (r : RatedPolicy) : Prop :=
  p.policy_id = some r.policy_id ∧ p.policy_type = some r.policy_type ∧
    ∃ ci, p.coverage_info = some ci ∧ ci.discount = some r.discount

/-! ### Object copier (app.py lines 149-187)

The two object stores are association lists from keys to byte lists.
The handler fetches the object from A; if the fetch raises it returns
the error without ever touching B; otherwise it uploads the bytes to B
under the same key with `overwrite=True`. -/

/-- A key-to-bytes object store. -/
def ObjStore : Type := List (String × List Nat)

/-- `get_object`: the stored bytes, or a lookup failure. -/
def getObject (store : ObjStore) (k : String) : Option (List Nat) :=
  List.lookup k store

/-- `upload_blob(..., overwrite=True)`: bind `k` to `data`, shadowing
any previous binding. -/
def putObject (store : ObjStore) (k : String) (data : List Nat) : ObjStore :=
  (k, data) :: List.filter (fun p => p.1 ≠ k) store

/-- The `/fetch-from-s3` handler body: returns the HTTP-level outcome
and the destination store after the request. -/
def fetchFromS3 (a b : ObjStore) (file_key : String) :
    Except String ObjStore :=
  match getObject a file_key with
  | none => Except.error "Error fetching file from AWS S3"
  | some file_data => Except.ok (putObject b file_key file_data)

/-- Destination store visible after the request: unchanged when the
handler returned an error before writing. -/
def destAfterCopy (a b : ObjStore) (file_key : String) : ObjStore :=
  match fetchFromS3 a b file_key with
  | Except.ok b2 => b2
  | Except.error _ => b

/-! ### Concrete instances used to witness and to refute claims -/

/-- A complete policy object whose own `discount` (0) differs from its
`coverage_info.discount` (50). -/
def exPolicyA : PolicyDoc :=
  ⟨some "PA", some "auto", some 1000, some "low", some 0,
   some ⟨some "Ann", some 30, some "X"⟩,
   some ⟨some "Toyota", some "C", some 2020, some 0⟩,
   some ⟨some 1, some 2, some 3, some 50⟩⟩

def exDocA : Document := ⟨some [⟨some "B1", some [exPolicyA]⟩]⟩

def exRowA : PolicyRow := ⟨"PA", "auto", 1000, 0, "low", 50, some "B1"⟩

def exQuadA : RowQuad :=
  ⟨exRowA, ⟨"PA", "Ann", 30, "X"⟩, ⟨"PA", "Toyota", "C", 2020, 0⟩, ⟨"PA", 1, 2, 3, 50⟩⟩

def exStoreA : Store :=
  ⟨[exRowA], [⟨"PA", "Ann", 30, "X"⟩], [⟨"PA", "Toyota", "C", 2020, 0⟩],
   [⟨"PA", 1, 2, 3, 50⟩]⟩

/-- A complete policy object, used inside a branch that lacks
`branch_id`. -/
def exPolicyD : PolicyDoc :=
  ⟨some "PD", some "home", some 100, some "low", some 5,
   some ⟨some "Bo", some 40, some "Y"⟩,
   some ⟨some "VW", some "Golf", some 2019, some 10⟩,
   some ⟨some 1, some 1, some 1, some 0⟩⟩

/-- A document whose only branch object is missing the `branch_id`
field. -/
def exDocD : Document := ⟨some [⟨none, some [exPolicyD]⟩]⟩

/-- A document whose only branch object is missing `branch_id` and
carries no policies at all. -/
def exDocF : Document := ⟨some [⟨none, some []⟩]⟩

/-- Three-policy batch for the atomicity witness. -/
def exQuad1 : RowQuad :=
  ⟨⟨"P1", "auto", 1, 0, "low", 0, some "B"⟩, ⟨"P1", "N", 1, "A"⟩,
   ⟨"P1", "M", "L", 2000, 0⟩, ⟨"P1", 0, 0, 0, 0⟩⟩

def exQuad2 : RowQuad :=
  ⟨⟨"P2", "auto", 1, 0, "low", 0, some "B"⟩, ⟨"P2", "N", 1, "A"⟩,
   ⟨"P2", "M", "L", 2000, 0⟩, ⟨"P2", 0, 0, 0, 0⟩⟩

def exQuad3 : RowQuad :=
  ⟨⟨"P3", "auto", 1, 0, "low", 0, some "B"⟩, ⟨"P3", "N", 1, "A"⟩,
   ⟨"P3", "M", "L", 2000, 0⟩, ⟨"P3", 0, 0, 0, 0⟩⟩

/-- A database that rejects the third policy's INSERT (constraint
violation on `P3`) and accepts everything else. -/
def rejectP3 : Row → Bool := fun r =>
  match r with
  | Row.policy pr => pr.policy_id != "P3"
  | _ => true

/-- A complete policy object with own `discount` 10 and
`coverage_info.discount` 50. -/
def exPolicyB : PolicyDoc :=
  ⟨some "PB", some "life", some 2000, some "medium", some 10,
   some ⟨some "Cy", some 28, some "Z"⟩,
   some ⟨some "Kia", some "Rio", some 2021, some 100⟩,
   some ⟨some 5, some 6, some 7, some 50⟩⟩

def exDocB : Document := ⟨some [⟨some "B2", some [exPolicyB]⟩]⟩

def exRowB : PolicyRow := ⟨"PB", "life", 2000, 100, "medium", 50, some "B2"⟩

def exStoreB : Store :=
  ⟨[exRowB], [⟨"PB", "Cy", 28, "Z"⟩], [⟨"PB", "Kia", "Rio", 2021, 100⟩],
   [⟨"PB", 5, 6, 7, 50⟩]⟩

/-- 2000 + 100*1.5 - 2000*(50/100) = 1150, medium risk: granted. -/
def exRatedB : RatedPolicy := ⟨"PB", "life", 2000, 100, "medium", 50, 1150, "Granted"⟩

/-- A store already holding one committed policy row, to show that the
aggregation step republishes previously stored rows. -/
def exStoreE : Store := ⟨[⟨"PX", "auto", 100, 0, "low", 0, some "B"⟩], [], [], []⟩

def exA8 : ObjStore := [("a.txt", [1, 2])]

def exB8 : ObjStore := [("b.txt", [9])]

def exA9 : ObjStore := [("f.bin", [7, 8, 9])]

/-- Destination already holding different bytes under the same key. -/
def exB9 : ObjStore := [("f.bin", [0])]

/-- The `NOT NULL` declarations of the DDL (app.py lines 92-138): every
column of every table is declared NOT NULL.  In this embedding the only
value the pipeline can hand to the database as SQL NULL is a policy
row's `branch_id` (obtained from `branch.get('branch_id')`), so a
database enforcing the DDL rejects exactly the policy-row inserts whose
`branch_id` is null. -/
def ddlNotNull : Row → Bool
  | Row.policy r => r.branch_id.isSome
  | _ => true

/-- The store visible to subsequent requests after the whole pipeline
ran: the committed state on success; the untouched previous state when
the transaction was abandoned without commit. -/
def visibleProcess (accept : Row → Bool) (s : Store) (d : Document) : Store :=
  match processDocument accept s d with
  | Except.ok (s2, _) => s2
  | Except.error _ => s

end CloudMigration

namespace CloudMigration

/-- **C1.** For every policy row, the computed premium equals
`base_premium + vehicle_damage * m - base_premium * discount / 100`
where the multiplier `m` is 1 for `"low"`, 3/2 for `"medium"`, 2 for
`"high"`, and 1 for every other string. -/
theorem premium_formula_and_multiplier (r : PolicyRow) :
    (ratePolicy r).calculated_premium =
      r.base_premium + r.vehicle_damage * specMultiplier r.risk_factor
        - r.base_premium * r.discount / 100
    ∧ specMultiplier "low" = 1
    ∧ specMultiplier "medium" = 3 / 2
    ∧ specMultiplier "high" = 2
    ∧ (r.risk_factor ≠ "low" → r.risk_factor ≠ "medium" →
        r.risk_factor ≠ "high" → specMultiplier r.risk_factor = 1) := by
  refine ⟨?_, by simp [specMultiplier], by simp [specMultiplier],
    by simp [specMultiplier], ?_⟩
  · unfold ratePolicy calculatedPremium riskMultiplier specMultiplier
    by_cases h1 : r.risk_factor = "low" <;>
      by_cases h2 : r.risk_factor = "medium" <;>
        by_cases h3 : r.risk_factor = "high" <;>
          simp [h1, h2, h3] <;> ring
  · intro h1 h2 h3
    simp [specMultiplier, h1, h2, h3]

/-- Witness for C1 at a concrete row with an unrecognized risk factor,
discharging the three disequality hypotheses of the default case. -/
theorem premium_formula_and_multiplier_witness :
    (ratePolicy ⟨"P1", "auto", 1000, 200, "turbo", 10, some "B1"⟩).calculated_premium
      = 1000 + 200 * specMultiplier "turbo" - 1000 * 10 / 100
    ∧ specMultiplier "turbo" = 1 := by
  have h := premium_formula_and_multiplier ⟨"P1", "auto", 1000, 200, "turbo", 10, some "B1"⟩
  exact ⟨h.1, h.2.2.2.2 (by decide) (by decide) (by decide)⟩

/-- **C2.** The eligibility decision is `"Granted"` iff the calculated
premium is strictly below 10000 and the risk factor is `"low"` or
`"medium"`; the decision is always one of `"Granted"`/`"Rejected"`, and
for `"high"` it is `"Rejected"` whatever the premium. -/
theorem eligibility_decision (r : PolicyRow) :
    ((ratePolicy r).insurance_granted = "Granted" ↔
      (ratePolicy r).calculated_premium < 10000
        ∧ (r.risk_factor = "low" ∨ r.risk_factor = "medium"))
    ∧ ((ratePolicy r).insurance_granted = "Granted"
        ∨ (ratePolicy r).insurance_granted = "Rejected")
    ∧ (r.risk_factor = "high" →
        (ratePolicy r).insurance_granted = "Rejected") := by
  refine ⟨?_, ?_, ?_⟩
  · unfold ratePolicy insuranceGranted
    by_cases h : calculatedPremium r.base_premium r.vehicle_damage r.risk_factor r.discount < 10000
        ∧ (r.risk_factor = "low" ∨ r.risk_factor = "medium") <;>
      simp [h]
  · unfold ratePolicy insuranceGranted
    by_cases h : calculatedPremium r.base_premium r.vehicle_damage r.risk_factor r.discount < 10000
        ∧ (r.risk_factor = "low" ∨ r.risk_factor = "medium") <;>
      simp [h]
  · intro hrf
    unfold ratePolicy insuranceGranted
    simp [hrf]

/-- Witness for C2 at a concrete high-risk row whose premium is far
below the threshold: the decision is still `"Rejected"`. -/
theorem eligibility_decision_witness :
    (ratePolicy ⟨"P3", "auto", 500, 100, "high", 50, some "B1"⟩).insurance_granted
      = "Rejected" := by
  exact (eligibility_decision ⟨"P3", "auto", 500, 100, "high", 50, some "B1"⟩).2.2 rfl

end CloudMigration

namespace CloudMigration

theorem exceptBind_isOk {α β : Type} (x : Except String α) (f : α → Except String β) :
    (x >>= f).isOk =
      match x with
      | Except.error _ => false
      | Except.ok a => (f a).isOk := by
  cases x <;> rfl

theorem exceptBind_ok {α β : Type} {x : Except String α} {f : α → Except String β} {c : β}
    (h : x >>= f = Except.ok c) : ∃ a, x = Except.ok a ∧ f a = Except.ok c := by
  cases x with
  | error e => exact Except.noConfusion h
  | ok a => exact ⟨a, rfl, h⟩

theorem decomposePolicy_isOk (bid : Option String) (p : PolicyDoc) :
    (decomposePolicy bid p).isOk = policyComplete p := by
  obtain ⟨pid, pt, bp, rf, disc, cust, vi, cov⟩ := p
  cases pid with
  | none => rfl
  | some pid => ?_
  cases pt with
  | none => rfl
  | some pt => ?_
  cases bp with
  | none => rfl
  | some bp => ?_
  rcases vi with _ | ⟨mk, mdl, yr, vd⟩
  · rfl
  cases vd with
  | none => rfl
  | some vd => ?_
  cases rf with
  | none => rfl
  | some rf => ?_
  rcases cov with _ | ⟨li, co, cm, di⟩
  · rfl
  cases di with
  | none => rfl
  | some di => ?_
  rcases cust with _ | ⟨nm, ag, ad⟩
  · rfl
  cases nm with
  | none => rfl
  | some nm => ?_
  cases ag with
  | none => rfl
  | some ag => ?_
  cases ad with
  | none => rfl
  | some ad => ?_
  cases mk with
  | none => rfl
  | some mk => ?_
  cases mdl with
  | none => rfl
  | some mdl => ?_
  cases yr with
  | none => rfl
  | some yr => ?_
  cases li with
  | none => rfl
  | some li => ?_
  cases co with
  | none => rfl
  | some co => ?_
  cases cm with
  | none => rfl
  | some cm => rfl

theorem mapM_isOk_eq_all {α β : Type} (f : α → Except String β) (xs : List α) :
    (xs.mapM f).isOk = xs.all fun x => (f x).isOk := by
  induction xs with
  | nil => rfl
  | cons x xs ih =>
    rw [List.mapM_cons, exceptBind_isOk]
    cases hfx : f x with
    | error e =>
      dsimp only
      simp only [List.all_cons, hfx]
      rfl
    | ok b =>
      dsimp only
      rw [exceptBind_isOk]
      cases hm : xs.mapM f with
      | error e =>
        dsimp only
        rw [hm] at ih
        simp only [List.all_cons, hfx]
        rw [← ih]
        rfl
      | ok ys =>
        dsimp only
        rw [hm] at ih
        simp only [List.all_cons, hfx]
        rw [← ih]
        rfl

theorem decomposeBranch_isOk (b : BranchDoc) :
    (decomposeBranch b).isOk = branchComplete b := by
  obtain ⟨bid, ps⟩ := b
  cases ps with
  | none => rfl
  | some ps =>
    show (ps.mapM (decomposePolicy bid)).isOk = ps.all policyComplete
    rw [mapM_isOk_eq_all]
    simp only [decomposePolicy_isOk]

theorem decompose_isOk (d : Document) :
    (decompose d).isOk = requiredPresent d := by
  obtain ⟨bs⟩ := d
  cases bs with
  | none => rfl
  | some bs =>
    show ((bs.mapM decomposeBranch) >>= fun qss => pure qss.flatten).isOk
      = bs.all branchComplete
    rw [exceptBind_isOk]
    have h2 := mapM_isOk_eq_all decomposeBranch bs
    cases hm : bs.mapM decomposeBranch with
    | error e =>
      dsimp only
      rw [hm] at h2
      simp only [decomposeBranch_isOk] at h2
      exact h2
    | ok qss =>
      dsimp only
      rw [hm] at h2
      simp only [decomposeBranch_isOk] at h2
      exact h2

theorem exceptOk_bind {α β : Type} (a : α) (f : α → Except String β) :
    (Except.ok a >>= f) = f a := rfl

theorem exceptError_bind {α β : Type} (e : String) (f : α → Except String β) :
    ((Except.error e : Except String α) >>= f) = Except.error e := rfl

theorem decomposePolicy_ok_spec (bid : Option String) (p : PolicyDoc) (q : RowQuad)
    (h : decomposePolicy bid p = Except.ok q) :
    p.policy_id = some q.policy.policy_id
    ∧ p.policy_type = some q.policy.policy_type
    ∧ p.base_premium = some q.policy.base_premium
    ∧ p.risk_factor = some q.policy.risk_factor
    ∧ (∃ ci, p.coverage_info = some ci ∧ ci.discount = some q.policy.discount)
    ∧ (∃ vi, p.vehicle_info = some vi ∧ vi.vehicle_damage = some q.policy.vehicle_damage)
    ∧ q.policy.branch_id = bid
    ∧ q.policy.discount = q.coverage.discount
    ∧ q.policy.vehicle_damage = q.vehicle.vehicle_damage := by
  have hok : (decomposePolicy bid p).isOk = true := by rw [h]; rfl
  rw [decomposePolicy_isOk] at hok
  obtain ⟨pid, pt, bp, rf, disc, cust, vi, cov⟩ := p
  cases pid with
  | none => simp [policyComplete] at hok
  | some pid => ?_
  cases pt with
  | none => simp [policyComplete] at hok
  | some pt => ?_
  cases bp with
  | none => simp [policyComplete] at hok
  | some bp => ?_
  rcases vi with _ | ⟨mk, mdl, yr, vd⟩
  · simp [policyComplete] at hok
  cases vd with
  | none => simp [policyComplete] at hok
  | some vd => ?_
  cases rf with
  | none => simp [policyComplete] at hok
  | some rf => ?_
  rcases cov with _ | ⟨li, co, cm, di⟩
  · simp [policyComplete] at hok
  cases di with
  | none => simp [policyComplete] at hok
  | some di => ?_
  rcases cust with _ | ⟨nm, ag, ad⟩
  · simp [policyComplete] at hok
  cases nm with
  | none => simp [policyComplete] at hok
  | some nm => ?_
  cases ag with
  | none => simp [policyComplete] at hok
  | some ag => ?_
  cases ad with
  | none => simp [policyComplete] at hok
  | some ad => ?_
  cases mk with
  | none => simp [policyComplete] at hok
  | some mk => ?_
  cases mdl with
  | none => simp [policyComplete] at hok
  | some mdl => ?_
  cases yr with
  | none => simp [policyComplete] at hok
  | some yr => ?_
  cases li with
  | none => simp [policyComplete] at hok
  | some li => ?_
  cases co with
  | none => simp [policyComplete] at hok
  | some co => ?_
  cases cm with
  | none => simp [policyComplete] at hok
  | some cm => ?_
  obtain rfl := Except.ok.inj h
  exact ⟨rfl, rfl, rfl, rfl, ⟨⟨some li, some co, some cm, some di⟩, rfl, rfl⟩,
    ⟨⟨some mk, some mdl, some yr, some vd⟩, rfl, rfl⟩, rfl, rfl, rfl⟩

theorem insertQuad_ok {accept : Row → Bool} {buf : Store} {q : RowQuad} {b2 : Store}
    (h : insertQuad accept buf q = Except.ok b2) :
    b2 = ⟨buf.policy ++ [q.policy], buf.customer_info ++ [q.customer],
          buf.vehicle_info ++ [q.vehicle], buf.coverage_info ++ [q.coverage]⟩ := by
  by_cases h1 : accept (Row.policy q.policy) <;>
    by_cases h2 : accept (Row.customer q.customer) <;>
      by_cases h3 : accept (Row.vehicle q.vehicle) <;>
        by_cases h4 : accept (Row.coverage q.coverage) <;>
          simp_all [insertQuad, insertRow, Store.add, exceptOk_bind, exceptError_bind]

theorem writeBatch_ok {accept : Row → Bool} {quads : List RowQuad} {s s2 : Store}
    (h : writeBatch accept s quads = Except.ok s2) :
    s2 = ⟨s.policy ++ quads.map RowQuad.policy,
          s.customer_info ++ quads.map RowQuad.customer,
          s.vehicle_info ++ quads.map RowQuad.vehicle,
          s.coverage_info ++ quads.map RowQuad.coverage⟩ := by
  induction quads generalizing s with
  | nil =>
    obtain rfl := Except.ok.inj h
    simp
  | cons q qs ih =>
    unfold writeBatch at h
    rw [List.foldlM_cons] at h
    obtain ⟨b, hb, hrest⟩ := exceptBind_ok h
    obtain rfl := insertQuad_ok hb
    have h2 := ih hrest
    rw [h2]
    simp

theorem mapM_ok_forall2 {α β : Type} {f : α → Except String β} {xs : List α} {ys : List β}
    (h : xs.mapM f = Except.ok ys) :
    List.Forall₂ (fun x y => f x = Except.ok y) xs ys := by
  induction xs generalizing ys with
  | nil =>
    rw [List.mapM_nil] at h
    obtain rfl := Except.ok.inj h
    exact List.Forall₂.nil
  | cons x xs ih =>
    rw [List.mapM_cons] at h
    obtain ⟨b, hb, h2⟩ := exceptBind_ok h
    obtain ⟨bs, hbs, h3⟩ := exceptBind_ok h2
    obtain rfl := Except.ok.inj h3
    exact List.Forall₂.cons hb (ih hbs)

theorem decomposeBranch_ok_forall2 {b : BranchDoc} {qs : List RowQuad}
    (h : decomposeBranch b = Except.ok qs) :
    List.Forall₂ (fun p q => decomposePolicy b.branch_id p = Except.ok q)
      (b.policies.getD []) qs := by
  obtain ⟨bid, ps⟩ := b
  cases ps with
  | none => exact Except.noConfusion h
  | some ps => exact mapM_ok_forall2 h

theorem decompose_ok_forall2 {d : Document} {quads : List RowQuad}
    (h : decompose d = Except.ok quads) :
    List.Forall₂ (fun p q => ∃ bid, decomposePolicy bid p = Except.ok q)
      (submittedPolicies d) quads := by
  obtain ⟨bs⟩ := d
  cases bs with
  | none => exact Except.noConfusion h
  | some bs =>
    obtain ⟨bs2, hbs2, h2⟩ := exceptBind_ok h
    obtain rfl := Except.ok.inj hbs2
    obtain ⟨qss, hqss, h3⟩ := exceptBind_ok h2
    obtain rfl := Except.ok.inj h3
    have hf := mapM_ok_forall2 hqss
    have hff : List.Forall₂
        (List.Forall₂ fun p q => ∃ bid, decomposePolicy bid p = Except.ok q)
        (bs.map fun b => b.policies.getD []) qss := by
      clear h hbs2 h2 h3 hqss
      induction hf with
      | nil => exact List.Forall₂.nil
      | @cons b qs bs2 qss2 hb ht ih =>
        exact List.Forall₂.cons
          ((decomposeBranch_ok_forall2 hb).imp fun p q hpq => ⟨b.branch_id, hpq⟩) ih
    exact List.rel_flatten hff

theorem forall2_mem_right {α β : Type} {R : α → β → Prop} {xs : List α} {ys : List β}
    (h : List.Forall₂ R xs ys) {y : β} (hy : y ∈ ys) : ∃ x, x ∈ xs ∧ R x y := by
  induction h with
  | nil => cases hy
  | cons hr ht ih =>
    rcases List.mem_cons.mp hy with rfl | hy2
    · exact ⟨_, List.mem_cons_self _ _, hr⟩
    · obtain ⟨x, hx, hR⟩ := ih hy2
      exact ⟨x, List.mem_cons_of_mem _ hx, hR⟩

/-- **C3** (amended).  The discount used in the premium formula is the
one stored on the policy row, which the decomposer copies from the
input's `coverage_info.discount`; the policy object's own top-level
`discount` key is ignored entirely (changing it cannot change the
decomposition), so when the two input fields differ the calculated
premium is determined by `coverage_info.discount`. -/
theorem discount_provenance (bid : Option String) (p : PolicyDoc) (q : RowQuad)
    (h : decomposePolicy bid p = Except.ok q) :
    (∃ ci, p.coverage_info = some ci ∧ ci.discount = some q.policy.discount)
    ∧ (∀ d2 : Option ℚ,
        decomposePolicy bid ⟨p.policy_id, p.policy_type, p.base_premium, p.risk_factor,
          d2, p.customer_info, p.vehicle_info, p.coverage_info⟩ = Except.ok q)
    ∧ (ratePolicy q.policy).calculated_premium
        = calculatedPremium q.policy.base_premium q.policy.vehicle_damage
            q.policy.risk_factor q.policy.discount := by
  refine ⟨(decomposePolicy_ok_spec bid p q h).2.2.2.2.1, ?_, rfl⟩
  intro d2
  have heq : decomposePolicy bid ⟨p.policy_id, p.policy_type, p.base_premium, p.risk_factor,
      d2, p.customer_info, p.vehicle_info, p.coverage_info⟩ = decomposePolicy bid p := rfl
  rw [heq, h]

/-- Witness for C3 at the concrete complete policy `exPolicyA`. -/
theorem discount_provenance_witness :
    decomposePolicy (some "B1") exPolicyA = Except.ok exQuadA
    ∧ ∃ ci, exPolicyA.coverage_info = some ci
        ∧ ci.discount = some exQuadA.policy.discount := by
  have h : decomposePolicy (some "B1") exPolicyA = Except.ok exQuadA := rfl
  exact ⟨h, (discount_provenance (some "B1") exPolicyA exQuadA h).1⟩

/-- The claim as stated is false at a concrete input: in `exDocA` the
policy's own discount is 0 while `coverage_info.discount` is 50, and
the pipeline publishes calculated premium 500 — the value the formula
yields with discount 50 — not the 1000 it would yield with the policy's
own discount 0. -/
theorem discount_provenance_counterexample :
    exPolicyA.discount = some 0
    ∧ exPolicyA.coverage_info = some ⟨some 1, some 2, some 3, some 50⟩
    ∧ processDocument (fun _ => true) Store.empty exDocA
        = Except.ok (exStoreA, [⟨"PA", "auto", 1000, 0, "low", 50, 500, "Granted"⟩])
    ∧ calculatedPremium 1000 0 "low" 50 = 500
    ∧ calculatedPremium 1000 0 "low" 0 = 1000
    ∧ (500 : ℚ) ≠ 1000 := by
  have h1 : ratePolicy exRowA = ⟨"PA", "auto", 1000, 0, "low", 50, 500, "Granted"⟩ := by
    simp [ratePolicy, calculatedPremium, riskMultiplier, insuranceGranted, exRowA]
    norm_num
  have h2 : processDocument (fun _ => true) Store.empty exDocA
      = Except.ok (exStoreA, [ratePolicy exRowA]) := rfl
  rw [h1] at h2
  refine ⟨rfl, rfl, h2, ?_, ?_, by norm_num⟩
  · simp [calculatedPremium, riskMultiplier]
    norm_num
  · simp [calculatedPremium, riskMultiplier]

theorem forall2_mem_left {α β : Type} {R : α → β → Prop} {xs : List α} {ys : List β}
    (h : List.Forall₂ R xs ys) {x : α} (hx : x ∈ xs) : ∃ y, y ∈ ys ∧ R x y := by
  induction h with
  | nil => cases hx
  | cons hr ht ih =>
    rcases List.mem_cons.mp hx with rfl | hx2
    · exact ⟨_, List.mem_cons_self _ _, hr⟩
    · obtain ⟨y, hy, hR⟩ := ih hx2
      exact ⟨y, List.mem_cons_of_mem _ hy, hR⟩

theorem writeBatch_error_of_null_branch (accept : Row → Bool)
    (haccept : ∀ pr : PolicyRow, pr.branch_id = none → accept (Row.policy pr) = false)
    (s : Store) (quads : List RowQuad)
    (hq : ∃ q ∈ quads, q.policy.branch_id = none) :
    ∃ e, writeBatch accept s quads = Except.error e := by
  induction quads generalizing s with
  | nil =>
    obtain ⟨q, hq1, _⟩ := hq
    cases hq1
  | cons q qs ih =>
    unfold writeBatch
    rw [List.foldlM_cons]
    cases hins : insertQuad accept s q with
    | error e => exact ⟨e, rfl⟩
    | ok b =>
      obtain ⟨q2, hq2mem, hq2null⟩ := hq
      rcases List.mem_cons.mp hq2mem with rfl | htail
      · exfalso
        have hrej : accept (Row.policy q2.policy) = false := haccept _ hq2null
        simp [insertQuad, insertRow, hrej, exceptError_bind] at hins
      · obtain ⟨e, he⟩ := ih b ⟨q2, htail, hq2null⟩
        exact ⟨e, he⟩

theorem decompose_null_branch_mem {d : Document} {quads : List RowQuad}
    {bs : List BranchDoc} {b2 : BranchDoc}
    (hbs : d.branches = some bs) (hmem : b2 ∈ bs) (hnull : b2.branch_id = none)
    (hne : b2.policies.getD [] ≠ []) (hdec : decompose d = Except.ok quads) :
    ∃ q ∈ quads, q.policy.branch_id = none := by
  obtain ⟨bs3⟩ := d
  obtain rfl : bs3 = some bs := hbs
  obtain ⟨bs2, hbs2, h2⟩ := exceptBind_ok hdec
  obtain rfl := Except.ok.inj hbs2
  obtain ⟨qss, hqss, h3⟩ := exceptBind_ok h2
  obtain rfl := Except.ok.inj h3
  have hf := mapM_ok_forall2 hqss
  obtain ⟨qs, hqsmem, hqs⟩ := forall2_mem_left hf hmem
  have hf2 := decomposeBranch_ok_forall2 hqs
  cases hqs3 : qs with
  | nil =>
    exfalso
    rw [hqs3] at hf2
    exact hne (List.length_eq_zero.mp hf2.length_eq)
  | cons q qs2 =>
    subst hqs3
    obtain ⟨p, _, hp⟩ := forall2_mem_right hf2 (List.mem_cons_self q qs2)
    obtain ⟨_, _, _, _, _, _, hbid, _, _⟩ := decomposePolicy_ok_spec _ _ _ hp
    refine ⟨q, ?_, by rw [hbid, hnull]⟩
    exact List.mem_flatten.mpr ⟨q :: qs2, hqsmem, List.mem_cons_self q qs2⟩

/-- **C4** (amended).  Decomposition of a batch raises a key error
naming the field exactly when a bracket-read required field is missing:
the `branches` key, a branch's `policies` key, or any required key of a
policy object or of its nested customer/vehicle/coverage objects (first
conjunct; the second and third conjuncts record that neither a branch's
`branch_id` nor the policy's own top-level `discount` is among them).
The decomposer substitutes null for a missing `branch_id` instead of
raising, and that null then makes the batch fail at the database's
NOT NULL constraint on `policy.branch_id` whenever the branch carries
at least one policy, the visible store staying unchanged (fourth
conjunct, for any database that enforces the DDL) — but a branch
missing `branch_id` whose `policies` list is empty produces no rows, so
that batch succeeds as a no-op instead of failing. -/
theorem decomposer_schema_check (d : Document) (b : BranchDoc) (p : PolicyDoc)
    (d2 : Option ℚ) (accept : Row → Bool) (s : Store)
    (haccept : ∀ pr : PolicyRow, pr.branch_id = none →
      accept (Row.policy pr) = false) :
    (decompose d).isOk = requiredPresent d
    ∧ branchComplete ⟨none, b.policies⟩ = branchComplete b
    ∧ policyComplete ⟨p.policy_id, p.policy_type, p.base_premium, p.risk_factor, d2,
        p.customer_info, p.vehicle_info, p.coverage_info⟩ = policyComplete p
    ∧ (∀ bs b2, d.branches = some bs → b2 ∈ bs → b2.branch_id = none →
        b2.policies.getD [] ≠ [] →
        (∃ e, processDocument accept s d = Except.error e)
        ∧ visibleProcess accept s d = s) := by
  refine ⟨decompose_isOk d, rfl, rfl, ?_⟩
  intro bs b2 hbs hmem hnull hne
  cases hdec : decompose d with
  | error e =>
    have hp : processDocument accept s d = Except.error e := by
      simp only [processDocument, hdec, exceptError_bind]
    exact ⟨⟨e, hp⟩, by unfold visibleProcess; rw [hp]⟩
  | ok quads =>
    have hq := decompose_null_branch_mem hbs hmem hnull hne hdec
    obtain ⟨e, he⟩ := writeBatch_error_of_null_branch accept haccept s quads hq
    have hp : processDocument accept s d = Except.error e := by
      simp only [processDocument, hdec, exceptOk_bind, he, exceptError_bind]
    exact ⟨⟨e, hp⟩, by unfold visibleProcess; rw [hp]⟩

/-- Witness for C4 at the concrete document `exDocD`, whose only branch
is missing `branch_id` but carries one complete policy: against the
DDL-enforcing database the batch fails and the visible store is
unchanged. -/
theorem decomposer_schema_check_witness :
    (∃ e, processDocument ddlNotNull Store.empty exDocD = Except.error e)
    ∧ visibleProcess ddlNotNull Store.empty exDocD = Store.empty := by
  have h := (decomposer_schema_check exDocD ⟨none, some [exPolicyD]⟩ exPolicyD none
      ddlNotNull Store.empty
      (fun pr hpr => by simp [ddlNotNull, hpr])).2.2.2
  exact h [⟨none, some [exPolicyD]⟩] ⟨none, some [exPolicyD]⟩ rfl
    (List.mem_singleton.mpr rfl) rfl (by simp)

/-- The claim as stated is false at a concrete input, even against a
database enforcing every NOT NULL constraint of the DDL: `exDocF`'s
only branch object is missing the required `branch_id` field, but its
`policies` list is empty, so the traversal performs no INSERT at all
and the whole ingestion succeeds as a no-op — it does not fail with a
schema or parse error. -/
theorem decomposer_schema_check_counterexample :
    processDocument ddlNotNull Store.empty exDocF = Except.ok (Store.empty, [])
    ∧ (⟨none, some []⟩ : BranchDoc).branch_id = none := ⟨rfl, rfl⟩

/-- **C5.**  Batch-write atomicity: when any INSERT of the batch is
rejected, the store visible to subsequent reads is exactly the previous
state — no row of the batch survives — and the failure propagates to
the caller of the pipeline as an error; when the write succeeds, the
whole batch is committed, all four row sets appended in full. -/
theorem batch_write_atomicity (accept : Row → Bool) (s : Store) (quads : List RowQuad) :
    (∀ e, writeBatch accept s quads = Except.error e →
      visibleWrite accept s quads = s)
    ∧ (∀ s2, writeBatch accept s quads = Except.ok s2 →
      visibleWrite accept s quads = s2
      ∧ s2 = ⟨s.policy ++ quads.map RowQuad.policy,
              s.customer_info ++ quads.map RowQuad.customer,
              s.vehicle_info ++ quads.map RowQuad.vehicle,
              s.coverage_info ++ quads.map RowQuad.coverage⟩)
    ∧ (∀ d e, decompose d = Except.ok quads →
        writeBatch accept s quads = Except.error e →
        processDocument accept s d = Except.error e) := by
  refine ⟨?_, ?_, ?_⟩
  · intro e he
    unfold visibleWrite
    rw [he]
  · intro s2 hs2
    refine ⟨?_, writeBatch_ok hs2⟩
    unfold visibleWrite
    rw [hs2]
  · intro d e hd he
    simp only [processDocument, hd, he, exceptOk_bind, exceptError_bind]

/-- Witness for C5: a three-policy batch whose third policy INSERT the
database rejects; the write errors and the visible store is unchanged. -/
theorem batch_write_atomicity_witness :
    writeBatch rejectP3 Store.empty [exQuad1, exQuad2, exQuad3]
      = Except.error "insert rejected"
    ∧ visibleWrite rejectP3 Store.empty [exQuad1, exQuad2, exQuad3] = Store.empty := by
  have he : writeBatch rejectP3 Store.empty [exQuad1, exQuad2, exQuad3]
      = Except.error "insert rejected" := rfl
  exact ⟨he,
    (batch_write_atomicity rejectP3 Store.empty [exQuad1, exQuad2, exQuad3]).1
      "insert rejected" he⟩

/-- **C6** (amended).  Ingesting a valid batch into an empty store and
aggregating yields one published record per submitted policy, in
traversal order, reproducing `policy_id` and `policy_type` verbatim;
the published `discount` is the submitted `coverage_info.discount` (the
value the pipeline stores as the policy's discount), not the policy
object's own top-level discount when the two differ. -/
theorem round_trip_fields (accept : Row → Bool) (d : Document) (s2 : Store)
    (out : List RatedPolicy)
    (h : processDocument accept Store.empty d = Except.ok (s2, out)) :
    List.Forall₂ ratedMatches (submittedPolicies d) out := by
  unfold processDocument at h
  obtain ⟨quads, hq, h2⟩ := exceptBind_ok h
  obtain ⟨s3, hw, h3⟩ := exceptBind_ok h2
  obtain ⟨rfl, rfl⟩ := Prod.mk.inj (Except.ok.inj h3)
  obtain rfl := writeBatch_ok hw
  have hf := decompose_ok_forall2 hq
  show List.Forall₂ ratedMatches (submittedPolicies d)
    ((quads.map RowQuad.policy).map ratePolicy)
  rw [List.map_map, List.forall₂_map_right_iff]
  refine hf.imp fun p q hpq => ?_
  obtain ⟨bid, hb⟩ := hpq
  obtain ⟨h1, h2b, _, _, ⟨ci, hci, hdisc⟩, _⟩ := decomposePolicy_ok_spec bid p q hb
  exact ⟨h1, h2b, ⟨ci, hci, hdisc⟩⟩

/-- Witness for C6 at the concrete one-policy document `exDocB`. -/
theorem round_trip_fields_witness :
    List.Forall₂ ratedMatches (submittedPolicies exDocB) [exRatedB] := by
  have h1 : ratePolicy exRowB = exRatedB := by
    simp [ratePolicy, calculatedPremium, riskMultiplier, insuranceGranted, exRowB, exRatedB]
    norm_num
  have h2 : processDocument (fun _ => true) Store.empty exDocB
      = Except.ok (exStoreB, [ratePolicy exRowB]) := rfl
  rw [h1] at h2
  exact round_trip_fields (fun _ => true) exDocB exStoreB [exRatedB] h2

/-- The claim as stated is false at a concrete input: `exDocB`'s policy
is submitted with its own discount field equal to 10, but the published
output's discount is 50 (the coverage_info value), so the submitted
policy's discount is not reproduced verbatim. -/
theorem round_trip_counterexample :
    exPolicyB.discount = some 10
    ∧ processDocument (fun _ => true) Store.empty exDocB
        = Except.ok (exStoreB, [exRatedB])
    ∧ [exRatedB].map RatedPolicy.discount = [50]
    ∧ (10 : ℚ) ≠ 50 := by
  have h1 : ratePolicy exRowB = exRatedB := by
    simp [ratePolicy, calculatedPremium, riskMultiplier, insuranceGranted, exRowB, exRatedB]
    norm_num
  have h2 : processDocument (fun _ => true) Store.empty exDocB
      = Except.ok (exStoreB, [ratePolicy exRowB]) := rfl
  rw [h1] at h2
  exact ⟨rfl, h2, rfl, by norm_num⟩

/-- **C7** (amended).  A document whose `branches` is the empty list
inserts zero rows — the store is unchanged — and the published output
is the rating of exactly the rows already in the store; in particular,
from an empty store the published output is the empty array. -/
theorem empty_branches_zero_rows (accept : Row → Bool) (s : Store) (d : Document)
    (h : d.branches = some []) :
    processDocument accept s d = Except.ok (s, s.policy.map ratePolicy)
    ∧ (s = Store.empty → processDocument accept s d = Except.ok (s, [])) := by
  obtain ⟨bs⟩ := d
  obtain rfl : bs = some [] := h
  refine ⟨rfl, ?_⟩
  intro hs
  subst hs
  rfl

/-- Witness for C7: the empty-branches document on the empty store. -/
theorem empty_branches_zero_rows_witness :
    processDocument (fun _ => true) Store.empty (⟨some []⟩ : Document)
      = Except.ok (Store.empty, []) :=
  (empty_branches_zero_rows (fun _ => true) Store.empty ⟨some []⟩ rfl).2 rfl

/-- The claim as stated is false at a concrete input: with the non-empty
store `exStoreE`, ingesting an empty-branches document publishes the
previously stored policy, not the empty array — the SELECT reads the
whole table. -/
theorem empty_branches_counterexample :
    processDocument (fun _ => true) exStoreE (⟨some []⟩ : Document)
      = Except.ok (exStoreE, [⟨"PX", "auto", 100, 0, "low", 0, 100, "Granted"⟩])
    ∧ ([⟨"PX", "auto", 100, 0, "low", 0, 100, "Granted"⟩] : List RatedPolicy) ≠ [] := by
  have h1 : ratePolicy ⟨"PX", "auto", 100, 0, "low", 0, some "B"⟩
      = ⟨"PX", "auto", 100, 0, "low", 0, 100, "Granted"⟩ := by
    simp [ratePolicy, calculatedPremium, riskMultiplier, insuranceGranted]
    norm_num
  have h2 : processDocument (fun _ => true) exStoreE (⟨some []⟩ : Document)
      = Except.ok (exStoreE, [ratePolicy ⟨"PX", "auto", 100, 0, "low", 0, some "B"⟩]) := rfl
  rw [h1] at h2
  exact ⟨h2, by simp⟩

/-- **C8.**  Copying a key absent from the source store fails with the
fetch error — the handler returns before any write — and the
destination store is left completely unchanged. -/
theorem copy_missing_source (a b : ObjStore) (k : String)
    (h : getObject a k = none) :
    fetchFromS3 a b k = Except.error "Error fetching file from AWS S3"
    ∧ destAfterCopy a b k = b := by
  have h1 : fetchFromS3 a b k = Except.error "Error fetching file from AWS S3" := by
    unfold fetchFromS3
    rw [h]
  refine ⟨h1, ?_⟩
  unfold destAfterCopy
  rw [h1]

/-- Witness for C8: key `nope` is absent from `exA8`; the copy fails and
`exB8` is untouched. -/
theorem copy_missing_source_witness :
    fetchFromS3 exA8 exB8 "nope" = Except.error "Error fetching file from AWS S3"
    ∧ destAfterCopy exA8 exB8 "nope" = exB8 :=
  copy_missing_source exA8 exB8 "nope" rfl

/-- **C9.**  Copying an existing key succeeds and stores, under exactly
the same key in the destination, byte-for-byte the content read from
the source, overwriting whatever the destination previously held at
that key. -/
theorem copy_existing_source (a b : ObjStore) (k : String) (data : List Nat)
    (h : getObject a k = some data) :
    fetchFromS3 a b k = Except.ok (putObject b k data)
    ∧ destAfterCopy a b k = putObject b k data
    ∧ getObject (putObject b k data) k = some data := by
  have h1 : fetchFromS3 a b k = Except.ok (putObject b k data) := by
    unfold fetchFromS3
    rw [h]
  refine ⟨h1, ?_, ?_⟩
  · unfold destAfterCopy
    rw [h1]
  · unfold getObject putObject
    simp [List.lookup]

/-- Witness for C9: destination `exB9` already holds different bytes
under `f.bin`; after the copy it holds the source bytes. -/
theorem copy_existing_source_witness :
    fetchFromS3 exA9 exB9 "f.bin" = Except.ok (putObject exB9 "f.bin" [7, 8, 9])
    ∧ destAfterCopy exA9 exB9 "f.bin" = putObject exB9 "f.bin" [7, 8, 9]
    ∧ getObject (putObject exB9 "f.bin" [7, 8, 9]) "f.bin" = some [7, 8, 9] :=
  copy_existing_source exA9 exB9 "f.bin" [7, 8, 9] rfl

/-- **C10.**  After every successful batch write the rows appended to
the policy, vehicle and coverage tables are exactly the batch's rows,
and within each written quad the policy row's discount equals the
coverage row's discount while the policy row's vehicle damage equals
the vehicle row's damage — all copied from the same input fields. -/
theorem stored_discount_damage_consistency (accept : Row → Bool) (s : Store)
    (d : Document) (s2 : Store) (out : List RatedPolicy)
    (h : processDocument accept s d = Except.ok (s2, out)) :
    ∃ quads, decompose d = Except.ok quads
      ∧ s2.policy = s.policy ++ quads.map RowQuad.policy
      ∧ s2.coverage_info = s.coverage_info ++ quads.map RowQuad.coverage
      ∧ s2.vehicle_info = s.vehicle_info ++ quads.map RowQuad.vehicle
      ∧ ∀ q ∈ quads, q.policy.discount = q.coverage.discount
          ∧ q.policy.vehicle_damage = q.vehicle.vehicle_damage := by
  unfold processDocument at h
  obtain ⟨quads, hq, h2⟩ := exceptBind_ok h
  obtain ⟨s3, hw, h3⟩ := exceptBind_ok h2
  obtain ⟨rfl, rfl⟩ := Prod.mk.inj (Except.ok.inj h3)
  obtain rfl := writeBatch_ok hw
  refine ⟨quads, hq, rfl, rfl, rfl, ?_⟩
  intro q hq2
  obtain ⟨p, _, bid, hb⟩ := forall2_mem_right (decompose_ok_forall2 hq) hq2
  obtain ⟨_, _, _, _, _, _, _, hd1, hd2⟩ := decomposePolicy_ok_spec bid p q hb
  exact ⟨hd1, hd2⟩

/-- Witness for C10 at the concrete one-policy document `exDocA` written
into the empty store. -/
theorem stored_discount_damage_consistency_witness :
    ∃ quads, decompose exDocA = Except.ok quads
      ∧ exStoreA.policy = Store.empty.policy ++ quads.map RowQuad.policy
      ∧ exStoreA.coverage_info = Store.empty.coverage_info ++ quads.map RowQuad.coverage
      ∧ exStoreA.vehicle_info = Store.empty.vehicle_info ++ quads.map RowQuad.vehicle
      ∧ ∀ q ∈ quads, q.policy.discount = q.coverage.discount
          ∧ q.policy.vehicle_damage = q.vehicle.vehicle_damage := by
  have h : processDocument (fun _ => true) Store.empty exDocA
      = Except.ok (exStoreA, [ratePolicy exRowA]) := rfl
  exact stored_discount_damage_consistency (fun _ => true) Store.empty exDocA
    exStoreA [ratePolicy exRowA] h

end CloudMigration
